import Mathlib

/-!
Verification of the subprocess code-interpreter core of this repository:
the Python and PowerShell language adapters
(`interpreter/core/code_interpreters/languages/python.py` and
`interpreter/core/code_interpreters/languages/powershell.py`).

Modelling conventions used throughout this file:

* Python strings are modelled as `String` / `List Char`; Python's
  `str.split(sep)` (with a nonempty separator), substring containment
  (`sep in s`) and `int(s)` are given executable Lean models below.
* A raised Python exception is modelled as `Except.error`; a function that
  cannot raise is a plain function.
* A multi-line program string is, where convenient, modelled by its list of
  lines (the image of splitting on `"\n"`); joining with `"\n"` and
  re-splitting is the identity on such lists, so purely line-oriented
  string manipulations of the source become list operations here.
* `ast.parse`/`ast.unparse` round-tripping is modelled as the identity
  between a syntax tree and its source text: pipelines that unparse and
  immediately re-parse are composed at the tree level.
-/

set_option maxRecDepth 4000

/-- Characters Python's `str.strip()` and the regex class `\s` treat as
whitespace (ASCII range; the rare non-ASCII whitespace code points are not
modelled). -/
def pySpace (c : Char) : Bool :=
  c = ' ' || c = '\t' || c = '\n' || c = '\r' || c = '\x0b' || c = '\x0c'

/-- Split a character list at the first occurrence of `sep`:
`some (before, after)` when `sep` occurs as a contiguous sublist, `none`
otherwise.  This is the search underlying Python's `str.split` and the
`in` containment test. -/
def firstSplit (sep : List Char) (s : List Char) : Option (List Char × List Char) :=
  if sep.isPrefixOf s then some ([], s.drop sep.length)
  else
    match s with
    | [] => none
    | c :: cs => (firstSplit sep cs).map (fun p => (c :: p.1, p.2))

/-- `sep in s` for Python strings (nonempty `sep`). -/
def containsSub (sep s : List Char) : Bool :=
  (firstSplit sep s).isSome

/-- Fuelled worker for `pysplit`; the fuel only serves termination and is
always supplied large enough to be irrelevant. -/
def splitOnFuel (sep : List Char) : Nat → List Char → List (List Char)
  | 0, s => [s]
  | fuel + 1, s =>
    match firstSplit sep s with
    | none => [s]
    | some (a, b) => a :: splitOnFuel sep fuel b

/-- Python `s.split(sep)` for a nonempty separator `sep`. -/
def pysplit (sep s : List Char) : List (List Char) :=
  splitOnFuel sep (s.length + 1) s

/-- Python `s.strip()`: remove leading and trailing whitespace. -/
def pyStrip (s : List Char) : List Char :=
  ((s.dropWhile pySpace).reverse.dropWhile pySpace).reverse

/-- Python `int(s)` with base 10: surrounding whitespace is stripped, an
optional sign is accepted, and the remainder must be a nonempty run of
decimal digits.  (Underscore digit-grouping, also accepted by `int`, is
not modelled; no marker the instrumentation emits contains one.)
`none` models the `ValueError` that `int` raises otherwise. -/
def pyInt? (s : List Char) : Option Int :=
  let t := pyStrip s
  let signAndDigits : Int × List Char :=
    match t with
    | '+' :: r => (1, r)
    | '-' :: r => (-1, r)
    | r => (1, r)
  let sign := signAndDigits.1
  let digits := signAndDigits.2
  if digits ≠ [] && digits.all Char.isDigit then
    some (sign * (digits.foldl (fun acc c => 10 * acc + (c.toNat - 48)) 0 : Nat))
  else none

namespace Python

/-- `Python.detect_active_line` from `languages/python.py`:

```python
if "##active_line" in line:
    return int(line.split("##active_line")[1].split("##")[0])
return None
```

`Except.error ()` models the `ValueError` raised by `int` on a malformed
marker.  Index `[1]` always exists when the containment test passed, and
index `[0]` always exists, so no `IndexError` arises and `getD` is exact. -/
def detect_active_line (line : String) : Except Unit (Option Int) :=
  if containsSub ("##active_line".toList) line.toList then
    match
      pyInt?
        ((pysplit ("##".toList)
            ((pysplit ("##active_line".toList) line.toList).getD 1 [])).getD 0 []) with
    | some n => Except.ok (some n)
    | none => Except.error ()
  else Except.ok none

end Python

namespace PowerShell

/-- `PowerShell.detect_active_line` from `languages/powershell.py`; the body
is character-for-character the same as the Python adapter's. -/
def detect_active_line (line : String) : Except Unit (Option Int) :=
  if containsSub ("##active_line".toList) line.toList then
    match
      pyInt?
        ((pysplit ("##".toList)
            ((pysplit ("##active_line".toList) line.toList).getD 1 [])).getD 0 []) with
    | some n => Except.ok (some n)
    | none => Except.error ()
  else Except.ok none

end PowerShell

/-- The text between the first occurrence of `##active_line` in the line and
the next `##` after it (the rest of the line when no `##` follows); `[]`
when the marker substring is absent.  This is the number-text position as
the specification describes it. -/
def specMarkerText (line : String) : List Char :=
  match firstSplit ("##active_line".toList) line.toList with
  | none => []
  | some (_, rest) =>
    match firstSplit ("##".toList) rest with
    | none => rest
    | some (a, _) => a

/-- `true` iff `sep` occurs at most once as a substring of `s`. -/
def occursAtMostOnce (sep s : List Char) : Bool :=
  match firstSplit sep s with
  | none => true
  | some (_, b) => !containsSub sep b

/-- Classification of an output line as the specification words it, amended
for partiality: `ActiveLine` when the text between the marker substring and
the next `##` parses as an integer, a raised `ValueError` (`Except.error`)
when it does not, `None` when the marker substring is absent. -/
def specDetect (line : String) : Except Unit (Option Int) :=
  if containsSub ("##active_line".toList) line.toList then
    match pyInt? (specMarkerText line) with
    | some n => Except.ok (some n)
    | none => Except.error ()
  else Except.ok none

namespace PowerShell

/-- The start-command selection in `PowerShell.__init__`
(`languages/powershell.py`):

```python
if platform.system() == "Windows":
    self.start_cmd = "powershell.exe"
else:
    self.start_cmd = "pwsh" if shutil.which("pwsh") else "bash"
```

`system` models `platform.system()`; `which_pwsh` models `shutil.which("pwsh")`
(`some path` when the binary is discoverable on the PATH, `none` otherwise;
`which` never returns an empty string, so Python truthiness is `isSome`). -/
def start_cmd (system : String) (which_pwsh : Option String) : String :=
  if system = "Windows" then "powershell.exe"
  else
    match which_pwsh with
    | some _ => "pwsh"
    | none => "bash"

/-- Worker for `add_active_line_prints`: the loop
`for index, line in enumerate(lines)` replacing `lines[index]` with
`f'Write-Output "##active_line{index + 1}##"\n{line}'`.  At the level of
lines, each original line at 0-based `index` becomes the marker line
followed by the unchanged line. -/
def addPrintsFrom (index : Nat) : List String → List String
  | [] => []
  | l :: rest =>
    (s!"Write-Output \"##active_line{index + 1}##\"") :: l :: addPrintsFrom (index + 1) rest

/-- `add_active_line_prints` from `languages/powershell.py`, as a function on
the list of lines of the code (`code.split("\n")` … `"\n".join(lines)`). -/
def add_active_line_prints (lines : List String) : List String :=
  addPrintsFrom 0 lines

/-- `wrap_in_try_catch` from `languages/powershell.py`: the textual prefix

```
\n try \x7b \n     $ErrorActionPreference = "Stop" \n
```

followed by the code, followed by `\n\x7d catch \x7b\n    Write-Error $_\n\x7d\n`,
expressed on lines (the prefix ends with a newline and the suffix starts
with one, so the code's own lines are preserved verbatim). -/
def wrap_in_try_catch (lines : List String) : List String :=
  ["", "try \x7b", "    $ErrorActionPreference = \"Stop\""] ++ lines ++
    ["\x7d catch \x7b", "    Write-Error $_", "\x7d", ""]

/-- The end-of-execution sentinel statement appended by
`preprocess_powershell`. -/
def endOfExecutionLine : String := "Write-Output \"##end_of_execution##\""

/-- `preprocess_powershell` from `languages/powershell.py`: instrument, wrap,
then append `'\nWrite-Output "##end_of_execution##"'`.  The wrapped code ends
with a newline, so the appended sentinel is one further whole line. -/
def preprocess_powershell (lines : List String) : List String :=
  wrap_in_try_catch (add_active_line_prints lines) ++ [endOfExecutionLine]

end PowerShell

/-! ## The Python statement tree

The statement grammar of `languages/python.py`'s AST manipulations, as far
as its claims reach: simple statements are kept opaque (their source text
suffices), compound statements carry the `body` / `orelse` / handler /
`finalbody` slots the `AddLinePrints` transformer and `wrap_in_try_except`
traverse, and the expression layer carries exactly the nodes those
functions construct (`print(...)` calls, `traceback.print_exc()`,
`Exception`).  `lineno` is `some n` on every parsed node and `none` on
nodes the instrumentation constructs without a line number — mirroring
`hasattr(node, "lineno")`.  Expression-level `body` attributes (`lambda`,
conditional expressions) are outside this grammar; programs containing
them crash `ast.unparse` after the transformer corrupts those slots, and
no claim quantifies over them. -/

inductive PyExpr where
  | name (id : String)
  | strConst (s : String)
  | call (func : PyExpr) (args : List PyExpr)
  | attr (obj : PyExpr) (field : String)

mutual
inductive PyStmt where
  | exprStmt (lineno : Option Nat) (value : PyExpr)
  | importStmt (lineno : Option Nat) (modname : String)
  | simple (lineno : Option Nat) (src : String)
  | ifStmt (lineno : Option Nat) (test : String) (body orelse : List PyStmt)
  | whileStmt (lineno : Option Nat) (test : String) (body orelse : List PyStmt)
  | forStmt (lineno : Option Nat) (header : String) (body orelse : List PyStmt)
  | withStmt (lineno : Option Nat) (header : String) (body : List PyStmt)
  | funcDef (lineno : Option Nat) (header : String) (body : List PyStmt)
  | tryStmt (lineno : Option Nat) (body : List PyStmt) (handlers : List PyHandler)
      (orelse finalbody : List PyStmt)
inductive PyHandler where
  | mk (typ : Option PyExpr) (asName : Option String) (body : List PyStmt)
end

/-- The `lineno` attribute (`hasattr(node, "lineno")` is `isSome`). -/
def PyStmt.linenoOf : PyStmt → Option Nat
  | .exprStmt l _ => l
  | .importStmt l _ => l
  | .simple l _ => l
  | .ifStmt l _ _ _ => l
  | .whileStmt l _ _ _ => l
  | .forStmt l _ _ _ => l
  | .withStmt l _ _ => l
  | .funcDef l _ _ => l
  | .tryStmt l _ _ _ _ => l

namespace Python

/-- `AddLinePrints.insert_print_statement`: the constructed node
`ast.Expr(value=ast.Call(func=ast.Name("print"), args=[ast.Constant(f"##active_line{line_number}##")]))`;
it carries no `lineno`. -/
def insert_print_statement (n : Nat) : PyStmt :=
  .exprStmt none (.call (.name "print") [.strConst s!"##active_line{n}##"])

/-- `AddLinePrints.process_body`: before every element of the list that has
a `lineno` attribute, insert the corresponding marker print; elements
without one (the inserted prints themselves, on a second pass) are kept
as they are.  (The `if not isinstance(body, list)` normalisation never
fires for the statement slots modelled here — they are always lists.) -/
def process_body : List PyStmt → List PyStmt
  | [] => []
  | s :: rest =>
    match s.linenoOf with
    | some n => insert_print_statement n :: s :: process_body rest
    | none => s :: process_body rest

/-- The field-processing steps `AddLinePrints.visit` performs *after*
`super().visit(node)` returns: `process_body` on a `body` attribute, on a
non-empty `orelse`, and — the `ast.Try` special case — on every handler
body (a second time: the handlers were already processed when
`generic_visit` visited them as child nodes) and on a non-empty
`finalbody`.  Statements with none of these attributes pass through. -/
def postProcess : PyStmt → PyStmt
  | .ifStmt l t b o => .ifStmt l t (process_body b) (if o.isEmpty then o else process_body o)
  | .whileStmt l t b o => .whileStmt l t (process_body b) (if o.isEmpty then o else process_body o)
  | .forStmt l h b o => .forStmt l h (process_body b) (if o.isEmpty then o else process_body o)
  | .withStmt l h b => .withStmt l h (process_body b)
  | .funcDef l h b => .funcDef l h (process_body b)
  | .tryStmt l b hs o f =>
      .tryStmt l (process_body b)
        (hs.map (fun h => match h with | .mk t n hb => .mk t n (process_body hb)))
        (if o.isEmpty then o else process_body o)
        (if f.isEmpty then f else process_body f)
  | s => s

mutual

/-- `AddLinePrints.visit` on one statement: `super().visit(node)` dispatches
to `generic_visit` (no `visit_<Class>` methods exist), which re-visits every
child statement and handler through this same override; afterwards the
override's own steps (`postProcess`) run on the result. -/
def visitStmt : PyStmt → PyStmt
  | .exprStmt l v => .exprStmt l v
  | .importStmt l m => .importStmt l m
  | .simple l src => .simple l src
  | .ifStmt l t b o => postProcess (.ifStmt l t (visitList b) (visitList o))
  | .whileStmt l t b o => postProcess (.whileStmt l t (visitList b) (visitList o))
  | .forStmt l h b o => postProcess (.forStmt l h (visitList b) (visitList o))
  | .withStmt l h b => postProcess (.withStmt l h (visitList b))
  | .funcDef l h b => postProcess (.funcDef l h (visitList b))
  | .tryStmt l b hs o f =>
      postProcess (.tryStmt l (visitList b) (visitHandlers hs) (visitList o) (visitList f))

/-- `generic_visit`'s elementwise visit of a statement-list field. -/
def visitList : List PyStmt → List PyStmt
  | [] => []
  | s :: rest => visitStmt s :: visitList rest

/-- `generic_visit`'s elementwise visit of the `handlers` field. -/
def visitHandlers : List PyHandler → List PyHandler
  | [] => []
  | h :: rest => visitHandler h :: visitHandlers rest

/-- `AddLinePrints.visit` on an `ast.ExceptHandler` child: `generic_visit`
visits its body's statements, then the override sees the handler's `body`
attribute and applies `process_body` to it (the first of the two times a
handler body is processed). -/
def visitHandler : PyHandler → PyHandler
  | .mk t n b => .mk t n (process_body (visitList b))

end

/-- `add_active_line_prints` from `languages/python.py`:
`ast.parse`, `AddLinePrints().visit(tree)`, `ast.unparse` — at tree level,
visiting the `ast.Module`: `generic_visit` visits each top-level statement,
then the override processes the module's `body` attribute. -/
def add_active_line_prints (m : List PyStmt) : List PyStmt :=
  process_body (visitList m)

/-- The handler-body statement `traceback.print_exc()` constructed by
`wrap_in_try_except`. -/
def print_exc_stmt : PyStmt :=
  .exprStmt none (.call (.attr (.name "traceback") "print_exc") [])

/-- `wrap_in_try_except` from `languages/python.py`: prepend
`"import traceback\n"` to the code, re-parse, and make the whole parsed
body the protected body of a single `ast.Try` with one
`ast.ExceptHandler(type=ast.Name("Exception"), name=None)` whose body is
`traceback.print_exc()`.  (The re-parse shifts the original statements'
line numbers by one; nothing downstream reads line numbers after this
point, so the shift is not modelled.) -/
def wrap_in_try_except (body : List PyStmt) : List PyStmt :=
  [.tryStmt none (.importStmt (some 1) "traceback" :: body)
    [.mk (some (.name "Exception")) none [print_exc_stmt]] [] []]

end Python

/-! ## Specification-side instrumenters

Two instrumenters written from the specification's words, to be compared
with `Python.add_active_line_prints`.  `specInstrumentClaim` renders claim
C1 as stated: exactly one marker-emission print immediately before every
statement that has a source line number, recursively into every body,
orelse clause, try body, handler body and finally body.
`specInstrumentAmended` renders the amended claim: the same, except that a
statement sitting directly in an exception-handler body receives *two*
markers. -/

mutual
def claimStmt : PyStmt → PyStmt
  | .exprStmt l v => .exprStmt l v
  | .importStmt l m => .importStmt l m
  | .simple l src => .simple l src
  | .ifStmt l t b o => .ifStmt l t (claimBody b) (claimBody o)
  | .whileStmt l t b o => .whileStmt l t (claimBody b) (claimBody o)
  | .forStmt l h b o => .forStmt l h (claimBody b) (claimBody o)
  | .withStmt l h b => .withStmt l h (claimBody b)
  | .funcDef l h b => .funcDef l h (claimBody b)
  | .tryStmt l b hs o f => .tryStmt l (claimBody b) (claimHandlers hs) (claimBody o) (claimBody f)
def claimBody : List PyStmt → List PyStmt
  | [] => []
  | s :: rest =>
    match s.linenoOf with
    | some n => Python.insert_print_statement n :: claimStmt s :: claimBody rest
    | none => claimStmt s :: claimBody rest
def claimHandlers : List PyHandler → List PyHandler
  | [] => []
  | h :: rest => claimHandler h :: claimHandlers rest
def claimHandler : PyHandler → PyHandler
  | .mk t n b => .mk t n (claimBody b)
end

/-- Claim C1's instrumentation, as stated: one marker before each statement
with a source line number, uniformly everywhere. -/
def specInstrumentClaim (m : List PyStmt) : List PyStmt := claimBody m

mutual
def amendStmt : PyStmt → PyStmt
  | .exprStmt l v => .exprStmt l v
  | .importStmt l m => .importStmt l m
  | .simple l src => .simple l src
  | .ifStmt l t b o => .ifStmt l t (amendBody b) (amendBody o)
  | .whileStmt l t b o => .whileStmt l t (amendBody b) (amendBody o)
  | .forStmt l h b o => .forStmt l h (amendBody b) (amendBody o)
  | .withStmt l h b => .withStmt l h (amendBody b)
  | .funcDef l h b => .funcDef l h (amendBody b)
  | .tryStmt l b hs o f => .tryStmt l (amendBody b) (amendHandlers hs) (amendBody o) (amendBody f)
def amendBody : List PyStmt → List PyStmt
  | [] => []
  | s :: rest =>
    match s.linenoOf with
    | some n => Python.insert_print_statement n :: amendStmt s :: amendBody rest
    | none => amendStmt s :: amendBody rest
def amendHandlers : List PyHandler → List PyHandler
  | [] => []
  | h :: rest => amendHandler h :: amendHandlers rest
def amendHandler : PyHandler → PyHandler
  | .mk t n b => .mk t n (amendHandlerBody b)
def amendHandlerBody : List PyStmt → List PyStmt
  | [] => []
  | s :: rest =>
    match s.linenoOf with
    | some n =>
      Python.insert_print_statement n :: Python.insert_print_statement n ::
        amendStmt s :: amendHandlerBody rest
    | none => amendStmt s :: amendHandlerBody rest
end

/-- The instrumentation the code actually performs, per the amended claim:
one marker before each statement with a source line number, except directly
inside exception-handler bodies, where each such statement gets two. -/
def specInstrumentAmended (m : List PyStmt) : List PyStmt := amendBody m

/-! ## Statement counting -/

mutual
def countStmts : PyStmt → Nat
  | .exprStmt _ _ => 1
  | .importStmt _ _ => 1
  | .simple _ _ => 1
  | .ifStmt _ _ b o => 1 + countList b + countList o
  | .whileStmt _ _ b o => 1 + countList b + countList o
  | .forStmt _ _ b o => 1 + countList b + countList o
  | .withStmt _ _ b => 1 + countList b
  | .funcDef _ _ b => 1 + countList b
  | .tryStmt _ b hs o f => 1 + countList b + countHandlers hs + countList o + countList f
def countList : List PyStmt → Nat
  | [] => 0
  | s :: rest => countStmts s + countList rest
def countHandlers : List PyHandler → Nat
  | [] => 0
  | h :: rest => countHandler h + countHandlers rest
def countHandler : PyHandler → Nat
  | .mk _ _ b => countList b
end

/-- 1 for a statement carrying a source line number, else 0. -/
def linenoWeight (s : PyStmt) : Nat :=
  match s.linenoOf with
  | some _ => 1
  | none => 0

mutual
/-- The claim's `K`: the number of statements that have a source line
number, counting statements nested in bodies, orelse clauses, try bodies,
handler bodies and finally bodies. -/
def linenoCountStmt : PyStmt → Nat
  | .exprStmt l v => linenoWeight (.exprStmt l v)
  | .importStmt l m => linenoWeight (.importStmt l m)
  | .simple l src => linenoWeight (.simple l src)
  | .ifStmt l t b o => linenoWeight (.ifStmt l t b o) + linenoCountList b + linenoCountList o
  | .whileStmt l t b o => linenoWeight (.whileStmt l t b o) + linenoCountList b + linenoCountList o
  | .forStmt l h b o => linenoWeight (.forStmt l h b o) + linenoCountList b + linenoCountList o
  | .withStmt l h b => linenoWeight (.withStmt l h b) + linenoCountList b
  | .funcDef l h b => linenoWeight (.funcDef l h b) + linenoCountList b
  | .tryStmt l b hs o f =>
      linenoWeight (.tryStmt l b hs o f) + linenoCountList b + linenoCountHandlers hs +
        linenoCountList o + linenoCountList f
def linenoCountList : List PyStmt → Nat
  | [] => 0
  | s :: rest => linenoCountStmt s + linenoCountList rest
def linenoCountHandlers : List PyHandler → Nat
  | [] => 0
  | h :: rest => linenoCountHandler h + linenoCountHandlers rest
def linenoCountHandler : PyHandler → Nat
  | .mk _ _ b => linenoCountList b
end

/-! ## Unparsing (`ast.unparse`) and the preprocessing pipelines

`ast.unparse` renders one statement per line, nested blocks indented by
four spaces, string constants in single quotes, and no blank lines; `elif`
re-collapsing is not modelled (it only shortens an `else:` line, which no
claim inspects). -/

def indentOf (n : Nat) : String := String.mk (List.replicate (4 * n) ' ')

mutual
def unparseExpr : PyExpr → String
  | .name id => id
  | .strConst s => "'" ++ s ++ "'"
  | .call f args => unparseExpr f ++ "(" ++ joinArgs args ++ ")"
  | .attr obj fld => unparseExpr obj ++ "." ++ fld
def joinArgs : List PyExpr → String
  | [] => ""
  | [e] => unparseExpr e
  | e :: rest => unparseExpr e ++ ", " ++ joinArgs rest
end

mutual
def unparseStmt (ind : Nat) : PyStmt → List String
  | .exprStmt _ v => [indentOf ind ++ unparseExpr v]
  | .importStmt _ m => [indentOf ind ++ "import " ++ m]
  | .simple _ src => [indentOf ind ++ src]
  | .ifStmt _ t b o =>
      ((indentOf ind ++ "if " ++ t ++ ":") :: unparseList (ind + 1) b) ++
        (if o.isEmpty then [] else (indentOf ind ++ "else:") :: unparseList (ind + 1) o)
  | .whileStmt _ t b o =>
      ((indentOf ind ++ "while " ++ t ++ ":") :: unparseList (ind + 1) b) ++
        (if o.isEmpty then [] else (indentOf ind ++ "else:") :: unparseList (ind + 1) o)
  | .forStmt _ h b o =>
      ((indentOf ind ++ "for " ++ h ++ ":") :: unparseList (ind + 1) b) ++
        (if o.isEmpty then [] else (indentOf ind ++ "else:") :: unparseList (ind + 1) o)
  | .withStmt _ h b => (indentOf ind ++ "with " ++ h ++ ":") :: unparseList (ind + 1) b
  | .funcDef _ h b => (indentOf ind ++ "def " ++ h ++ ":") :: unparseList (ind + 1) b
  | .tryStmt _ b hs o f =>
      (((indentOf ind ++ "try:") :: unparseList (ind + 1) b) ++ unparseHandlers ind hs) ++
        (if o.isEmpty then [] else (indentOf ind ++ "else:") :: unparseList (ind + 1) o) ++
        (if f.isEmpty then [] else (indentOf ind ++ "finally:") :: unparseList (ind + 1) f)
def unparseList (ind : Nat) : List PyStmt → List String
  | [] => []
  | s :: rest => unparseStmt ind s ++ unparseList ind rest
def unparseHandlers (ind : Nat) : List PyHandler → List String
  | [] => []
  | h :: rest => unparseHandler ind h ++ unparseHandlers ind rest
def unparseHandler (ind : Nat) : PyHandler → List String
  | .mk t n b =>
      (indentOf ind ++ "except" ++
          (match t with | some e => " " ++ unparseExpr e | none => "") ++
          (match n with | some nm => " as " ++ nm | none => "") ++ ":") ::
        unparseList (ind + 1) b
end

/-- `ast.unparse` of a whole module, as its list of lines. -/
def unparseModule (m : List PyStmt) : List String := unparseList 0 m

/-- The end-of-execution sentinel statement `preprocess_python` appends
textually (double quotes: it never goes through `ast.unparse`). -/
def endOfExecutionPrint : String := "print(\"##end_of_execution##\")"

namespace Python

/-- `preprocess_python` from `languages/python.py`: instrument, wrap in
try/except, drop every whitespace-only line
(`[c for c in code_lines if c.strip() != ""]`), then append
`'\n\nprint("##end_of_execution##")'` — which contributes one empty line
and the sentinel line. -/
def preprocess_python (m : List PyStmt) : List String :=
  ((unparseModule (wrap_in_try_except (add_active_line_prints m))).filter
      (fun l => !(pyStrip l.toList).isEmpty)) ++
    ["", endOfExecutionPrint]

end Python

/-! ## The interactive-prompt filter of the Python adapter -/

/-- The regular-expression vocabulary needed for the prompt-filtering pattern
`^(\s*>>>\s*|\s*\.\.\.\s*)` of `Python.line_postprocessor`: literal strings
and `\s*` (zero or more whitespace characters). -/
inductive RegexPiece where
  | lit (cs : List Char)
  | starWS

/-- Matcher for `\s*` followed by whatever the continuation `k` accepts:
with backtracking, `\s*` may consume any number of leading whitespace
characters, and the match succeeds if the continuation accepts the
corresponding remainder. -/
def matchStarWS (k : List Char → Bool) : List Char → Bool
  | [] => k []
  | c :: cs => k (c :: cs) || (pySpace c && matchStarWS k cs)

/-- Backtracking matcher for a sequence of `RegexPiece`s against a *prefix*
of the input — the semantics of `re.match`: anchored at the start of the
string, not at its end. -/
def matchSeq : List RegexPiece → List Char → Bool
  | [], _ => true
  | .lit cs :: rest, s => cs.isPrefixOf s && matchSeq rest (s.drop cs.length)
  | .starWS :: rest, s => matchStarWS (matchSeq rest) s

/-- `re.match(r"^(\s*>>>\s*|\s*\.\.\.\s*)", line)` as a Bool: the alternation
of the two branches, each a `\s*`-literal-`\s*` sequence matched from the
start of the line. -/
def promptMatch (line : String) : Bool :=
  matchSeq [.starWS, .lit (">>>".toList), .starWS] line.toList ||
    matchSeq [.starWS, .lit ("...".toList), .starWS] line.toList

namespace Python

/-- `Python.line_postprocessor` from `languages/python.py`:

```python
if re.match(r"^(\s*>>>\s*|\s*\.\.\.\s*)", line):
    return None
return line
```

`none` models the discarded line, `some line` the unchanged line. -/
def line_postprocessor (line : String) : Option String :=
  if promptMatch line then none else some line

end Python

/-- A pure interactive-prompt echo as the specification words it: a primary
(`>>>`) or continuation (`...`) prompt optionally surrounded by whitespace,
with no trailing content. -/
def isPurePromptEcho (line : String) : Bool :=
  pyStrip line.toList = ">>>".toList || pyStrip line.toList = "...".toList

/-- The amended classification: after discarding leading whitespace the line
*begins with* a primary or continuation prompt; trailing content is
irrelevant. -/
def startsWithPrompt (line : String) : Bool :=
  (">>>".toList).isPrefixOf (line.toList.dropWhile pySpace) ||
    ("...".toList).isPrefixOf (line.toList.dropWhile pySpace)

/-! ## Parse failure and the submission turn -/

/-- The outcome of `ast.parse(code)` on an arbitrary source string: a parsed
module, or the `SyntaxError` it raises on code that cannot be parsed into a
statement tree. -/
inductive ParseResult where
  | ok (m : List PyStmt)
  | syntaxError

namespace Python

/-- `add_active_line_prints` including its `ast.parse` step: on unparseable
code the `SyntaxError` raised by `ast.parse` propagates — the function
installs no handler. -/
def add_active_line_prints_checked : ParseResult → Except Unit (List PyStmt)
  | .syntaxError => Except.error ()
  | .ok m => Except.ok (add_active_line_prints m)

/-- `preprocess_python` on an arbitrary source: its first step is
`add_active_line_prints`, whose exception propagates synchronously to the
caller; only on success do the wrapping, stripping and sentinel-appending
steps run. -/
def preprocess_python_checked (p : ParseResult) : Except Unit (List String) := do
  let instrumented ← add_active_line_prints_checked p
  pure (((unparseModule (wrap_in_try_except instrumented)).filter
      (fun l => !(pyStrip l.toList).isEmpty)) ++ ["", endOfExecutionPrint])

end Python

/-- One observable interaction with the language subprocess. -/
inductive DriverAction where
  | write (code : List String)

/-- Modelled from the spec: the Interactive-Process-Driver's submission step
(the `SubprocessCodeInterpreter` run method, whose file is not under
`src/`).  Per §4.3 it calls the adapter's `preprocess_code` on the submitted
source and then performs `write(code)` — one write of the preprocessed code
to the subprocess's input channel; per §7 an instrumentation failure is
surfaced to the caller before any subprocess interaction, so the turn never
starts.  The returned list is the sequence of subprocess interactions
performed during the turn's setup. -/
def submit_turn (p : ParseResult) : Except Unit (List DriverAction) := do
  let code ← Python.preprocess_python_checked p
  pure [DriverAction.write code]

/-- The three-statement program

```
try:
    x = 1
except:
    y = 2
```

(statements with line numbers 1, 2 and 4; the bare `except` has no type). -/
def tryExcModule : List PyStmt :=
  [.tryStmt (some 1) [.simple (some 2) "x = 1"]
    [.mk none none [.simple (some 4) "y = 2"]] [] []]

/-- The one-statement program `x = 1`. -/
def oneStmtModule : List PyStmt := [.simple (some 1) "x = 1"]

/-! # Theorems

Supporting lemmas first, then one theorem (with witness or counterexample
where required) per specification claim. -/

/-! ## Supporting lemmas for the split-chain in `detect_active_line` -/

theorem splitOnFuel_of_none {sep s : List Char} (h : firstSplit sep s = none) :
    ∀ fuel, splitOnFuel sep fuel s = [s] := by
  intro fuel
  cases fuel with
  | zero => rfl
  | succ n => simp [splitOnFuel, h]

theorem pysplit_getD_zero (sep s : List Char) :
    (pysplit sep s).getD 0 [] =
      (match firstSplit sep s with
       | none => s
       | some (a, _) => a) := by
  unfold pysplit
  cases h : firstSplit sep s with
  | none => simp [splitOnFuel, h]
  | some p => simp [splitOnFuel, h]

theorem pysplit_of_once {sep s a b : List Char} (h : firstSplit sep s = some (a, b))
    (hb : firstSplit sep b = none) : pysplit sep s = [a, b] := by
  unfold pysplit
  simp [splitOnFuel, h, splitOnFuel_of_none hb]

theorem detect_eq_specDetect_python (line : String)
    (h : occursAtMostOnce ("##active_line".toList) line.toList = true) :
    Python.detect_active_line line = specDetect line := by
  unfold occursAtMostOnce containsSub at h
  unfold Python.detect_active_line specDetect specMarkerText containsSub
  cases hf : firstSplit ("##active_line".toList) line.toList with
  | none => rfl
  | some p =>
    obtain ⟨a, b⟩ := p
    rw [hf] at h
    dsimp only at h
    have hb : firstSplit ("##active_line".toList) b = none := by
      cases hfb : firstSplit ("##active_line".toList) b with
      | none => rfl
      | some q =>
        rw [hfb] at h
        simp at h
    rw [pysplit_of_once hf hb, pysplit_getD_zero]
    rfl

theorem detect_eq_specDetect_powershell (line : String)
    (h : occursAtMostOnce ("##active_line".toList) line.toList = true) :
    PowerShell.detect_active_line line = specDetect line := by
  unfold occursAtMostOnce containsSub at h
  unfold PowerShell.detect_active_line specDetect specMarkerText containsSub
  cases hf : firstSplit ("##active_line".toList) line.toList with
  | none => rfl
  | some p =>
    obtain ⟨a, b⟩ := p
    rw [hf] at h
    dsimp only at h
    have hb : firstSplit ("##active_line".toList) b = none := by
      cases hfb : firstSplit ("##active_line".toList) b with
      | none => rfl
      | some q =>
        rw [hfb] at h
        simp at h
    rw [pysplit_of_once hf hb, pysplit_getD_zero]
    rfl

/-! ## Claim C2 -/

/-- Claim C2 counterexample: the line `"##active_lineQ##"` contains the
substring `##active_line`, yet `detect_active_line` (both adapters) does not
return an `ActiveLine` value for it — it raises `ValueError` (modelled
`Except.error ()`), because the text `"Q"` between the marker and the next
`##` is not an integer.  This refutes the claimed biconditional "returns
ActiveLine(N) if and only if the line contains the substring". -/
theorem claim_C2_counterexample :
    containsSub ("##active_line".toList) ("##active_lineQ##".toList) = true ∧
    Python.detect_active_line "##active_lineQ##" = Except.error () ∧
    PowerShell.detect_active_line "##active_lineQ##" = Except.error () :=
  ⟨rfl, rfl, rfl⟩

/-- Claim C2, amended: for every output line in which `##active_line` occurs
at most once, both adapters' `detect_active_line` return `ActiveLine(N)` when
the text between that substring and the next `##` parses as the integer `N`
(arbitrary surrounding text is tolerated), return `None` when the substring
is absent, and raise `ValueError` when the between-text does not parse as an
integer — as computed by the specification-side classifier `specDetect`. -/
theorem claim_C2_amended (line : String)
    (h : occursAtMostOnce ("##active_line".toList) line.toList = true) :
    Python.detect_active_line line = specDetect line ∧
    PowerShell.detect_active_line line = specDetect line :=
  ⟨detect_eq_specDetect_python line h, detect_eq_specDetect_powershell line h⟩

/-- Witness for the amended claim C2, at a line with surrounding text and a
well-formed marker, and at a line without the marker substring. -/
theorem claim_C2_witness :
    Python.detect_active_line "foo ##active_line12## bar" = Except.ok (some 12) ∧
    PowerShell.detect_active_line "no marker here" = Except.ok none :=
  ⟨((claim_C2_amended "foo ##active_line12## bar" rfl).1).trans rfl,
   ((claim_C2_amended "no marker here" rfl).2).trans rfl⟩

/-! ## Claim C10 -/

/-- Claim C10: `detect_active_line` is partial on malformed markers: on the
line `"##active_line##"` — which contains the substring `##active_line` but
where the text between it and the next `##` is empty, hence not a decimal
integer — both adapters raise `ValueError` (modelled `Except.error ()`)
instead of returning an `ActiveLine` number or `None`. -/
theorem claim_C10 :
    containsSub ("##active_line".toList) ("##active_line##".toList) = true ∧
    Python.detect_active_line "##active_line##" = Except.error () ∧
    PowerShell.detect_active_line "##active_line##" = Except.error () :=
  ⟨rfl, rfl, rfl⟩

/-! ## Supporting lemmas for the PowerShell textual instrumentation -/

theorem addPrintsFrom_length (k : Nat) (lines : List String) :
    (PowerShell.addPrintsFrom k lines).length = 2 * lines.length := by
  induction lines generalizing k with
  | nil => rfl
  | cons l rest ih =>
    simp only [PowerShell.addPrintsFrom, List.length_cons, ih]
    omega

theorem addPrintsFrom_getD (k : Nat) (lines : List String) (i : Nat)
    (h : i < lines.length) :
    (PowerShell.addPrintsFrom k lines).getD (2 * i) "" =
        s!"Write-Output \"##active_line{k + i + 1}##\"" ∧
      (PowerShell.addPrintsFrom k lines).getD (2 * i + 1) "" = lines.getD i "" := by
  induction lines generalizing k i with
  | nil => simp at h
  | cons l rest ih =>
    cases i with
    | zero => simp [PowerShell.addPrintsFrom]
    | succ j =>
      have hj : j < rest.length := by simpa using h
      have ih' := ih (k + 1) j hj
      have e1 : 2 * (j + 1) = 2 * j + 1 + 1 := by omega
      have e2 : 2 * (j + 1) + 1 = 2 * j + 1 + 1 + 1 := by omega
      have e3 : k + 1 + j + 1 = k + (j + 1) + 1 := by omega
      constructor
      · rw [e1]
        show (PowerShell.addPrintsFrom k (l :: rest)).getD (2 * j + 1 + 1) "" = _
        simp only [PowerShell.addPrintsFrom, List.getD_cons_succ]
        rw [ih'.1, e3]
      · rw [e2]
        simp only [PowerShell.addPrintsFrom, List.getD_cons_succ]
        exact ih'.2

/-! ## Claim C6 -/

/-- Claim C6: `PowerShell.add_active_line_prints` turns the list of lines of
the code into a list of twice the length in which every original line —
blank, comment or block-closing alike — sits unchanged at odd position
`2*i + 1`, immediately preceded at position `2*i` by the statement
`Write-Output "##active_line<i+1>##"` carrying the line's 1-based index. -/
theorem claim_C6 (lines : List String) (i : Nat) (h : i < lines.length) :
    (PowerShell.add_active_line_prints lines).length = 2 * lines.length ∧
    (PowerShell.add_active_line_prints lines).getD (2 * i) "" =
        s!"Write-Output \"##active_line{i + 1}##\"" ∧
    (PowerShell.add_active_line_prints lines).getD (2 * i + 1) "" = lines.getD i "" := by
  refine ⟨addPrintsFrom_length 0 lines, ?_, (addPrintsFrom_getD 0 lines i h).2⟩
  simpa using (addPrintsFrom_getD 0 lines i h).1

/-- Witness for claim C6 on the three-line script `["x = 1", "", "# c"]`
(including a blank line and a comment line), at index 1 (the blank line). -/
theorem claim_C6_witness :
    (PowerShell.add_active_line_prints ["x = 1", "", "# c"]).length = 6 ∧
    (PowerShell.add_active_line_prints ["x = 1", "", "# c"]).getD 2 "" =
        "Write-Output \"##active_line2##\"" ∧
    (PowerShell.add_active_line_prints ["x = 1", "", "# c"]).getD 3 "" = "" := by
  have h := claim_C6 ["x = 1", "", "# c"] 1 (by decide)
  exact ⟨h.1.trans rfl, h.2.1.trans rfl, h.2.2.trans rfl⟩

/-! ## Claim C9 -/

/-- Claim C9: the shell adapter's start command is `powershell.exe` on
Windows; on every non-Windows platform it is `pwsh` when that binary is
discoverable on the PATH and `bash` otherwise. -/
theorem claim_C9 :
    (∀ p : Option String, PowerShell.start_cmd "Windows" p = "powershell.exe") ∧
    (∀ s : String, s ≠ "Windows" → ∀ path : String,
      PowerShell.start_cmd s (some path) = "pwsh") ∧
    (∀ s : String, s ≠ "Windows" → PowerShell.start_cmd s none = "bash") := by
  refine ⟨fun p => ?_, fun s hs path => ?_, fun s hs => ?_⟩
  · simp [PowerShell.start_cmd]
  · simp [PowerShell.start_cmd, hs]
  · simp [PowerShell.start_cmd, hs]

/-- Witness for claim C9 at the three concrete platform outcomes. -/
theorem claim_C9_witness :
    PowerShell.start_cmd "Windows" (some "/usr/bin/pwsh") = "powershell.exe" ∧
    PowerShell.start_cmd "Linux" (some "/usr/bin/pwsh") = "pwsh" ∧
    PowerShell.start_cmd "Darwin" none = "bash" :=
  ⟨claim_C9.1 (some "/usr/bin/pwsh"),
   claim_C9.2.1 "Linux" (by decide) "/usr/bin/pwsh",
   claim_C9.2.2 "Darwin" (by decide)⟩

/-! ## Supporting lemmas for the prompt-filter regex -/

theorem matchStarWS_const_true (s : List Char) : matchStarWS (fun _ => true) s = true := by
  cases s <;> simp [matchStarWS]

theorem matchStarWS_litMatch (p : List Char) (k : List Char → Bool)
    (hk : ∀ t, k t = p.isPrefixOf t) (hne : p ≠ [])
    (hh : pySpace (p.headD 'x') = false) (s : List Char) :
    matchStarWS k s = p.isPrefixOf (s.dropWhile pySpace) := by
  obtain ⟨c0, p', rfl⟩ : ∃ c0 p', p = c0 :: p' := by
    cases p with
    | nil => exact absurd rfl hne
    | cons c0 p' => exact ⟨c0, p', rfl⟩
  simp only [List.headD_cons] at hh
  induction s with
  | nil => simp [matchStarWS, hk]
  | cons c cs ih =>
    simp only [matchStarWS, hk]
    by_cases hc : pySpace c = true
    · have hpre : (c0 :: p').isPrefixOf (c :: cs) = false := by
        cases hpp : (c0 :: p').isPrefixOf (c :: cs) with
        | false => rfl
        | true =>
          have hcc : c0 = c := by
            simp [List.isPrefixOf] at hpp
            exact hpp.1
          rw [hcc] at hh
          rw [hh] at hc
          exact absurd hc (by simp)
      rw [List.dropWhile_cons_of_pos hc]
      simp [hpre, hc, ih]
    · have hc' : pySpace c = false := by simpa using hc
      rw [List.dropWhile_cons_of_neg (by simp [hc'])]
      simp [hc', ih]

theorem stripRight_isPrefixOf (p : Char → Bool) (u : List Char) :
    ((u.reverse.dropWhile p).reverse).isPrefixOf u = true := by
  rw [List.isPrefixOf_iff_prefix]
  refine ⟨(u.reverse.takeWhile p).reverse, ?_⟩
  rw [← List.reverse_append, List.takeWhile_append_dropWhile, List.reverse_reverse]

theorem pyStrip_isPrefixOf_dropWhile (cs : List Char) :
    (pyStrip cs).isPrefixOf (cs.dropWhile pySpace) = true := by
  unfold pyStrip
  exact stripRight_isPrefixOf pySpace (cs.dropWhile pySpace)

theorem promptMatch_eq_startsWithPrompt (line : String) :
    promptMatch line = startsWithPrompt line := by
  unfold promptMatch startsWithPrompt
  simp only [matchSeq]
  rw [matchStarWS_litMatch (">>>".toList) _
      (fun t => by simp [matchStarWS_const_true]) (by decide) (by decide) line.toList,
    matchStarWS_litMatch ("...".toList) _
      (fun t => by simp [matchStarWS_const_true]) (by decide) (by decide) line.toList]

/-! ## Claim C5 -/

/-- Claim C5 counterexample: the line `">>> print(1)"` is *not* a pure
prompt echo (it has trailing content), yet `line_postprocessor` discards it
(returns `None`), because `re.match` anchors the pattern only at the start
of the line.  This refutes the claimed "if and only if … with no trailing
content". -/
theorem claim_C5_counterexample :
    isPurePromptEcho ">>> print(1)" = false ∧
    Python.line_postprocessor ">>> print(1)" = none :=
  ⟨rfl, rfl⟩

/-- Claim C5, amended: `line_postprocessor` discards a line (returns `None`)
if and only if the line *begins*, after optional leading whitespace, with a
primary prompt `>>>` or a continuation prompt `...`, regardless of trailing
content; in particular every pure prompt echo (hence the bare `">>> "` line)
is discarded, and every line not beginning with a prompt is returned
unchanged. -/
theorem claim_C5_amended (line : String) :
    (Python.line_postprocessor line = none ↔ startsWithPrompt line = true) ∧
    (isPurePromptEcho line = true → Python.line_postprocessor line = none) ∧
    (startsWithPrompt line = false → Python.line_postprocessor line = some line) := by
  have hM : promptMatch line = startsWithPrompt line := promptMatch_eq_startsWithPrompt line
  have hiff : Python.line_postprocessor line = none ↔ startsWithPrompt line = true := by
    unfold Python.line_postprocessor
    rw [hM]
    by_cases h : startsWithPrompt line = true
    · simp [h]
    · simp [h]
  refine ⟨hiff, ?_, ?_⟩
  · intro h
    have hor : pyStrip line.toList = ">>>".toList ∨ pyStrip line.toList = "...".toList := by
      simpa [isPurePromptEcho] using h
    have hp := pyStrip_isPrefixOf_dropWhile line.toList
    apply hiff.mpr
    unfold startsWithPrompt
    rcases hor with h1 | h1
    · rw [h1] at hp
      simp only [hp, Bool.true_or]
    · rw [h1] at hp
      simp only [hp, Bool.or_true]
  · intro h
    unfold Python.line_postprocessor
    rw [hM, h]
    rfl

/-- Witness for the amended claim C5: the bare primary-prompt line `">>> "`
is discarded, and an ordinary output line passes through unchanged. -/
theorem claim_C5_witness :
    Python.line_postprocessor ">>> " = none ∧
    Python.line_postprocessor "x = 5" = some "x = 5" :=
  ⟨(claim_C5_amended ">>> ").2.1 rfl, (claim_C5_amended "x = 5").2.2 rfl⟩

/-! ## Supporting lemmas for the AST instrumenter -/

theorem linenoOf_visitStmt (s : PyStmt) : (Python.visitStmt s).linenoOf = s.linenoOf := by
  cases s <;> rfl

theorem linenoOf_amendStmt (s : PyStmt) : (amendStmt s).linenoOf = s.linenoOf := by
  cases s <;> rfl

theorem process_body_cons_none (s : PyStmt) (rest : List PyStmt) (h : s.linenoOf = none) :
    Python.process_body (s :: rest) = s :: Python.process_body rest := by
  simp only [Python.process_body, h]

theorem process_body_cons_some (s : PyStmt) (rest : List PyStmt) (n : Nat)
    (h : s.linenoOf = some n) :
    Python.process_body (s :: rest) =
      Python.insert_print_statement n :: s :: Python.process_body rest := by
  simp only [Python.process_body, h]

theorem process_body_amendBody (b : List PyStmt) :
    Python.process_body (amendBody b) = amendHandlerBody b := by
  induction b with
  | nil => rfl
  | cons s rest ih =>
    cases hl : s.linenoOf with
    | none =>
      simp only [amendBody, amendHandlerBody, hl]
      rw [process_body_cons_none _ _ (by rw [linenoOf_amendStmt, hl])]
      rw [ih]
    | some n =>
      simp only [amendBody, amendHandlerBody, hl]
      rw [process_body_cons_none (Python.insert_print_statement n) _ rfl]
      rw [process_body_cons_some _ _ n (by rw [linenoOf_amendStmt, hl])]
      rw [ih]

mutual

theorem visitStmt_eq_amend (s : PyStmt) : Python.visitStmt s = amendStmt s := by
  cases s with
  | exprStmt l v => rfl
  | importStmt l m => rfl
  | simple l src => rfl
  | ifStmt l t b o =>
    simp only [Python.visitStmt, Python.postProcess, amendStmt]
    rw [visitList_amend b, visit_orelse_eq o]
  | whileStmt l t b o =>
    simp only [Python.visitStmt, Python.postProcess, amendStmt]
    rw [visitList_amend b, visit_orelse_eq o]
  | forStmt l h b o =>
    simp only [Python.visitStmt, Python.postProcess, amendStmt]
    rw [visitList_amend b, visit_orelse_eq o]
  | withStmt l h b =>
    simp only [Python.visitStmt, Python.postProcess, amendStmt]
    rw [visitList_amend b]
  | funcDef l h b =>
    simp only [Python.visitStmt, Python.postProcess, amendStmt]
    rw [visitList_amend b]
  | tryStmt l b hs o f =>
    simp only [Python.visitStmt, Python.postProcess, amendStmt]
    rw [visitList_amend b, visitHandlers_eq_amend hs, visit_orelse_eq o, visit_orelse_eq f]
termination_by (sizeOf s, 0)

theorem visitList_amend (b : List PyStmt) :
    Python.process_body (Python.visitList b) = amendBody b := by
  cases b with
  | nil => rfl
  | cons s rest =>
    cases hl : s.linenoOf with
    | none =>
      simp only [Python.visitList, amendBody, hl]
      rw [process_body_cons_none _ _ (by rw [linenoOf_visitStmt, hl])]
      rw [visitStmt_eq_amend s, visitList_amend rest]
    | some n =>
      simp only [Python.visitList, amendBody, hl]
      rw [process_body_cons_some _ _ n (by rw [linenoOf_visitStmt, hl])]
      rw [visitStmt_eq_amend s, visitList_amend rest]
termination_by (sizeOf b, 0)

theorem visit_orelse_eq (o : List PyStmt) :
    (if (Python.visitList o).isEmpty then Python.visitList o
      else Python.process_body (Python.visitList o)) = amendBody o := by
  cases o with
  | nil => rfl
  | cons s rest =>
    simp only [Python.visitList, List.isEmpty_cons, Bool.false_eq_true, if_false]
    exact visitList_amend (s :: rest)
termination_by (sizeOf o, 1)

theorem visitHandlers_eq_amend (hs : List PyHandler) :
    (Python.visitHandlers hs).map
        (fun h => match h with | .mk t n hb => .mk t n (Python.process_body hb)) =
      amendHandlers hs := by
  cases hs with
  | nil => rfl
  | cons h rest =>
    cases h with
    | mk t n b =>
      simp only [Python.visitHandlers, Python.visitHandler, List.map_cons, amendHandlers,
        amendHandler]
      rw [visitList_amend b, process_body_amendBody b, visitHandlers_eq_amend rest]
termination_by (sizeOf hs, 0)

end

/-! ## Claim C1 -/

/-- Claim C1 counterexample: on the program `try: x = 1 / except: y = 2`
(three statements with line numbers), the transformed tree is *not* the
one-marker-per-statement instrumentation the claim describes, and the
number of injected statements is 4, not K = 3: the statement in the
exception-handler body receives two markers, because `visit` processes a
handler's body once when `generic_visit` visits the `ExceptHandler` child
and once more in the `ast.Try` special case. -/
theorem claim_C1_counterexample :
    Python.add_active_line_prints tryExcModule ≠ specInstrumentClaim tryExcModule ∧
    countList (Python.add_active_line_prints tryExcModule) = countList tryExcModule + 4 ∧
    linenoCountList tryExcModule = 3 ∧
    countList (specInstrumentClaim tryExcModule) = countList tryExcModule + 3 :=
  ⟨fun h => absurd (congrArg countList h) (by decide), rfl, rfl, rfl⟩

/-- Claim C1, amended: for every program in the modelled statement grammar,
`add_active_line_prints` produces exactly the instrumentation that inserts
one marker-emission print statement immediately before each statement that
has a source line number — recursively into every body, orelse clause, try
body and finally body — except that each such statement sitting directly in
an exception-handler body receives *two* (identical, adjacent) markers, the
handler bodies being processed twice.  In particular the marker count is K
plus the number of handler-body statements, not K. -/
theorem claim_C1_amended (m : List PyStmt) :
    Python.add_active_line_prints m = specInstrumentAmended m := by
  unfold Python.add_active_line_prints specInstrumentAmended
  exact visitList_amend m

/-! ## Claim C4 -/

/-- Claim C4: for every program, `wrap_in_try_except` returns a module whose
body is a single try statement spanning the entire program: its protected
body holds the original top-level statements (preceded only by the
`import traceback` the function itself prepends), and it has exactly one
handler, catching `Exception` — the most general exception category — whose
body is the single statement `traceback.print_exc()`.  -/
theorem claim_C4 (body : List PyStmt) :
    Python.wrap_in_try_except body =
      [PyStmt.tryStmt none (PyStmt.importStmt (some 1) "traceback" :: body)
        [PyHandler.mk (some (PyExpr.name "Exception")) none
          [PyStmt.exprStmt none
            (PyExpr.call (PyExpr.attr (PyExpr.name "traceback") "print_exc") [])]]
        [] []] ∧
    (Python.wrap_in_try_except body).length = 1 :=
  ⟨rfl, rfl⟩

/-! ## Claim C8 -/

/-- Claim C8 counterexample: already on the one-statement program `x = 1`,
the preprocessed code contains an empty line — the blank-line stripping runs
*before* `'\n\nprint("##end_of_execution##")'` is appended, and that suffix
re-introduces one empty line. -/
theorem claim_C8_counterexample :
    "" ∈ Python.preprocess_python oneStmtModule ∧ pyStrip "".toList = [] :=
  ⟨by decide, rfl⟩

/-- Claim C8, amended: every whitespace-only line produced by the
instrumentation and wrapping steps is stripped, and the preprocessed code
consists of those stripped lines followed by exactly one empty line and the
sentinel print — so the final empty separator line before the appended
sentinel is the only whitespace-only line of the result. -/
theorem claim_C8_amended (m : List PyStmt) :
    Python.preprocess_python m =
      ((unparseModule (Python.wrap_in_try_except (Python.add_active_line_prints m))).filter
          (fun l => !(pyStrip l.toList).isEmpty)) ++ ["", endOfExecutionPrint] ∧
    (Python.preprocess_python m).getLast? = some endOfExecutionPrint ∧
    ((Python.preprocess_python m).dropLast.dropLast).all
        (fun l => !(pyStrip l.toList).isEmpty) = true := by
  refine ⟨rfl, ?_, ?_⟩
  · unfold Python.preprocess_python
    rw [show (["", endOfExecutionPrint] : List String) = [""] ++ [endOfExecutionPrint] from rfl,
      ← List.append_assoc]
    exact List.getLast?_concat _
  · unfold Python.preprocess_python
    rw [show (["", endOfExecutionPrint] : List String) = [""] ++ [endOfExecutionPrint] from rfl,
      ← List.append_assoc, List.dropLast_concat, List.dropLast_concat]
    rw [List.all_eq_true]
    intro l hl
    exact (List.mem_filter.mp hl).2

/-! ## Claim C3 -/

theorem filter_eq_nil_of_all_not {p : String → Bool} {L : List String}
    (h : L.all (fun l => !p l) = true) : L.filter p = [] := by
  induction L with
  | nil => rfl
  | cons a t ih =>
    simp only [List.all_cons, Bool.and_eq_true] at h
    have ha : p a = false := by
      have h1 := h.1
      simp only [Bool.not_eq_true'] at h1
      exact h1
    simp [List.filter_cons, ha, ih h.2]

theorem all_filter_of_all {r q : String → Bool} {L : List String}
    (h : L.all r = true) : (L.filter q).all r = true := by
  rw [List.all_eq_true] at h ⊢
  intro a ha
  exact h a (List.mem_filter.mp ha).1

/-- Claim C3: for both languages, the preprocessed program is the complete
wrapping construct followed by one final sentinel-emitting statement placed
after (outside) it: the Python result is the (blank-stripped) unparse of the
try/except module followed by `print("##end_of_execution##")` as its last
line, the PowerShell result is the try/catch-wrapped code followed by
`Write-Output "##end_of_execution##"` as its last line; and when the code
being wrapped never mentions the sentinel itself, that final statement is
the only sentinel-emitting line of the whole program. -/
theorem claim_C3 (m : List PyStmt) (ps : List String)
    (hm : (unparseModule (Python.wrap_in_try_except (Python.add_active_line_prints m))).all
        (fun l => !containsSub ("##end_of_execution##".toList) l.toList) = true)
    (hps : (PowerShell.add_active_line_prints ps).all
        (fun l => !containsSub ("##end_of_execution##".toList) l.toList) = true) :
    Python.preprocess_python m =
        ((unparseModule (Python.wrap_in_try_except (Python.add_active_line_prints m))).filter
            (fun l => !(pyStrip l.toList).isEmpty)) ++ ["", endOfExecutionPrint] ∧
    (Python.preprocess_python m).getLast? = some endOfExecutionPrint ∧
    (Python.preprocess_python m).filter
        (fun l => containsSub ("##end_of_execution##".toList) l.toList) =
      [endOfExecutionPrint] ∧
    PowerShell.preprocess_powershell ps =
        PowerShell.wrap_in_try_catch (PowerShell.add_active_line_prints ps) ++
          [PowerShell.endOfExecutionLine] ∧
    (PowerShell.preprocess_powershell ps).getLast? = some PowerShell.endOfExecutionLine ∧
    (PowerShell.preprocess_powershell ps).filter
        (fun l => containsSub ("##end_of_execution##".toList) l.toList) =
      [PowerShell.endOfExecutionLine] := by
  refine ⟨rfl, ?_, ?_, rfl, ?_, ?_⟩
  · unfold Python.preprocess_python
    rw [show (["", endOfExecutionPrint] : List String) = [""] ++ [endOfExecutionPrint] from rfl,
      ← List.append_assoc]
    exact List.getLast?_concat _
  · unfold Python.preprocess_python
    rw [List.filter_append]
    rw [filter_eq_nil_of_all_not (all_filter_of_all hm)]
    rfl
  · unfold PowerShell.preprocess_powershell
    exact List.getLast?_concat _
  · unfold PowerShell.preprocess_powershell PowerShell.wrap_in_try_catch
    rw [List.filter_append, List.filter_append, List.filter_append]
    rw [filter_eq_nil_of_all_not hps]
    rfl

/-- Witness for claim C3 on the one-statement Python program `x = 1` and the
one-line PowerShell script `x = 1`: both hypotheses (no sentinel mention in
the wrapped code) hold by computation, and the preprocessed programs end in
their sentinel statement and contain it exactly once. -/
theorem claim_C3_witness :
    (Python.preprocess_python oneStmtModule).getLast? = some endOfExecutionPrint ∧
    (Python.preprocess_python oneStmtModule).filter
        (fun l => containsSub ("##end_of_execution##".toList) l.toList) =
      [endOfExecutionPrint] ∧
    (PowerShell.preprocess_powershell ["x = 1"]).getLast? =
      some PowerShell.endOfExecutionLine :=
  ⟨(claim_C3 oneStmtModule ["x = 1"] (by decide) (by decide)).2.1,
   (claim_C3 oneStmtModule ["x = 1"] (by decide) (by decide)).2.2.1,
   (claim_C3 oneStmtModule ["x = 1"] (by decide) (by decide)).2.2.2.2.1⟩

/-! ## Claim C7 -/

/-- Claim C7: on code that cannot be parsed into a statement tree,
`preprocess_python` raises synchronously to its caller — the `SyntaxError`
from the `ast.parse` inside `add_active_line_prints` propagates unhandled —
and the execution turn performs no subprocess interaction at all (the
driver's action sequence is the error, containing no write); on parseable
code the checked pipeline agrees with the pure one. -/
theorem claim_C7 :
    Python.add_active_line_prints_checked ParseResult.syntaxError = Except.error () ∧
    Python.preprocess_python_checked ParseResult.syntaxError = Except.error () ∧
    submit_turn ParseResult.syntaxError = Except.error () ∧
    (∀ m : List PyStmt,
      Python.preprocess_python_checked (ParseResult.ok m) =
        Except.ok (Python.preprocess_python m)) :=
  ⟨rfl, rfl, rfl, fun _ => rfl⟩
